import Mathlib

/-!
Verification of the statistical describe engine of the taotie repository.

The active describe pipeline lives in `src/backend/describe.rs`
(`DataFrameDescriber`), invoked from `src/backend/mod.rs`
(`DatafusionBackend::describe`).  The file `src/backend/datafusion.rs`
(`DescribeDataFusion`) is not declared in the crate's module tree (no
`mod datafusion;` anywhere), but it is source of this repository and is
embedded here as well, because several spec sentences describe its
behaviour (the `"null"` placeholder cells and the tolerated planning
error).

The external DataFusion engine (aggregate execution, casting) is an
external collaborator; its operations are modelled from the spec's
interface boundary (section 6) and standard SQL aggregate semantics,
each such definition carrying a doc comment that says so.
-/

namespace Taotie

/-- Arrow `DataType`, restricted to the constructors the repository's code
paths distinguish (every other concrete arrow type behaves like one of
these in `is_numeric` / `is_temporal` / the `match` arms of
`describe.rs`). -/
inductive DataType
  | int8 | int16 | int32 | int64
  | uint8 | uint16 | uint32 | uint64
  | float16 | float32 | float64
  | decimal128 | decimal256
  | boolean | utf8 | largeUtf8 | binary | largeBinary
  | date32 | date64 | timestamp | time32 | time64 | duration | interval
  | nullType
  | list (elem : DataType) | largeList (elem : DataType)
deriving DecidableEq

/-- arrow-rs `DataType::is_numeric`: integers, unsigned integers,
floats and decimals. -/
def DataType.isNumeric : DataType → Bool
  | .int8 | .int16 | .int32 | .int64
  | .uint8 | .uint16 | .uint32 | .uint64
  | .float16 | .float32 | .float64
  | .decimal128 | .decimal256 => true
  | _ => false

/-- arrow-rs `DataType::is_temporal`: dates, times, timestamps,
durations and intervals. -/
def DataType.isTemporal : DataType → Bool
  | .date32 | .date64 | .timestamp | .time32 | .time64
  | .duration | .interval => true
  | _ => false

/-- Runtime cell values.  Numeric values are exact rationals; a temporal
value is its integer epoch/offset payload; list elements are abstracted
to optional rationals (the code only ever takes a list's element count);
`sym` is an opaque engine-computed numeric result (stddev, median,
approximate percentile) whose concrete number no claim depends on, kept
symbolic together with its non-null inputs. -/
inductive Value
  | int (i : Int)
  | float (q : ℚ)
  | str (s : String)
  | bool (b : Bool)
  | binary (bytes : List Nat)
  | temporal (t : Int)
  | listv (elems : List (Option ℚ))
  | sym (tag : String) (args : List ℚ)
deriving DecidableEq

/-- A schema field: column name plus declared data type. -/
structure Field where
  name : String
  dtype : DataType
deriving DecidableEq

/-- One column of a materialized relation: its field and its cells
(`none` is the SQL NULL). -/
structure Column where
  field : Field
  values : List (Option Value)
deriving DecidableEq

/-- A dataframe, column-oriented (all columns have the same length in a
well-formed frame; no claim needs that invariant carried). -/
structure DFrame where
  cols : List Column
deriving DecidableEq

/-- The numeric content of a value, when it has one. -/
def toRat : Value → Option ℚ
  | .int i => some (i : ℚ)
  | .float q => some q
  | .temporal t => some (t : ℚ)
  | _ => none

/-- Modelled from the spec: the engine's cast-to-text of a single value
(describe.rs normalizes non-numeric columns through
`cast(col, Utf8)`).  Binary bytes and list values are rendered through
`toString`; the repo never reaches those arms with claim-relevant data. -/
def castToText : Value → String
  | .str s => s
  | .bool b => if b then "true" else "false"
  | .int i => toString i
  | .float q => toString q
  | .temporal t => toString t
  | .binary bs => toString bs
  | .listv es => toString es.length
  | .sym tag _ => tag

/-- Modelled from the spec: the engine's cast-to-Float64 of a single
value (describe.rs casts temporal columns to `Float64`).  The only arm
the pipeline reaches is `temporal`. -/
def castFloat : Value → Value
  | .int i => .float (i : ℚ)
  | .float q => .float q
  | .temporal t => .float (t : ℚ)
  | .bool b => .float (if b then 1 else 0)
  | v => v

/-- Element count of a list value (datafusion `array_length`). -/
def listLen : Value → Nat
  | .listv es => es.length
  | _ => 0

/-- Number of non-null cells of a column. -/
def countSome (vals : List (Option Value)) : Nat :=
  (vals.filterMap id).length

/-- Number of null cells of a column. -/
def countNone (vals : List (Option Value)) : Nat :=
  (vals.filter (fun o => o.isNone)).length

/-- The non-null numeric contents of a column, in row order. -/
def ratsOf (vals : List (Option Value)) : List ℚ :=
  vals.filterMap (fun o => o.bind toRat)

/-! ## Column normalization (`DataFrameDescriber::try_new`, describe.rs 33-48) -/

/-- The data type of a normalized column, following the `match` in
`try_new` and the engine's expression typing: a temporal column is cast
to `Float64`; a numeric column keeps its type; `array_length` yields
`UInt64`; `length(cast(_, Utf8))` yields `Int32`. -/
def normType (dt : DataType) : DataType :=
  if dt.isTemporal then .float64
  else if dt.isNumeric then dt
  else match dt with
    | .list _ | .largeList _ => .uint64
    | _ => .int32

/-- Value-level semantics of the normalization expression built in
`try_new`, per row.  NULL propagates through every arm (cast of NULL is
NULL, `array_length` of a NULL list is NULL, `length` of a NULL text is
NULL). -/
def normalizeValue (dt : DataType) : Option Value → Option Value
  | none => none
  | some v =>
    some (if dt.isTemporal then castFloat v
          else if dt.isNumeric then v
          else match dt with
            | .list _ | .largeList _ => .int (listLen v)
            | _ => .int ((castToText v).length))

/-- Normalization of one column: same name (the expression is aliased
back to `field.name()`), normalized type, normalized cells. -/
def normalizeColumn (c : Column) : Column :=
  ⟨⟨c.field.name, normType c.field.dtype⟩, c.values.map (normalizeValue c.field.dtype)⟩

/-- The `transformed` relation of `DataFrameDescriber::try_new`:
`df.select(normalization expressions)`. -/
def transform (df : DFrame) : DFrame :=
  ⟨df.cols.map normalizeColumn⟩

/-- The normalization expression AST, one constructor per arm of the
`match` in `try_new`. -/
inductive NormExpr
  | castF64 (column : String)
  | colRef (column : String)
  | arrayLen (column : String)
  | textLen (column : String)
deriving DecidableEq

/-- An expression with its output alias (`expr.alias(field.name())`). -/
structure AliasedExpr where
  expr : NormExpr
  outName : String
deriving DecidableEq

/-- The expression `try_new` builds for one schema field, verbatim from
the source `match`. -/
def normalizeExpr (f : Field) : AliasedExpr :=
  ⟨if f.dtype.isTemporal then .castF64 f.name
   else if f.dtype.isNumeric then .colRef f.name
   else match f.dtype with
     | .list _ | .largeList _ => .arrayLen f.name
     | _ => .textLen f.name,
   f.name⟩

/-- The spec's ColumnType classification. -/
inductive ColumnType
  | numeric | temporal | listLike | textualOther
deriving DecidableEq

/-- Modelled from the spec: the Type Classifier ("categorizes a column's
declared type into one of Numeric, Temporal, Textual/Other, List-like;
unclassified/unknown types fall into Textual/Other as the conservative
default").  Written as a direct table over the declared types,
independently of the code's `is_numeric`/`is_temporal` tests. -/
def classify : DataType → ColumnType
  | .int8 | .int16 | .int32 | .int64
  | .uint8 | .uint16 | .uint32 | .uint64
  | .float16 | .float32 | .float64
  | .decimal128 | .decimal256 => .numeric
  | .date32 | .date64 | .timestamp | .time32 | .time64
  | .duration | .interval => .temporal
  | .list _ | .largeList _ => .listLike
  | .boolean | .utf8 | .largeUtf8 | .binary | .largeBinary
  | .nullType => .textualOther

/-! ## Engine aggregates (external collaborator, spec section 6) -/

/-- The planning error DataFusion raises for an aggregate call with an
empty grouping set and zero aggregate expressions; `datafusion.rs`
string-matches on exactly this text. -/
def aggPlanningMsg : String :=
  "Error during planning: Aggregate requires at least one grouping or aggregate expression"

/-- Modelled from the spec: the engine aggregate call with an empty
grouping set — "returns exactly one result row per non-empty request"
(one aliased output per aggregate expression) and "rejects requests with
zero aggregate expressions" with the recognizable planning error. -/
def aggregateRow (cols : List Column) (mk : Column → Option Value) :
    Except String (List (String × Option Value)) :=
  match cols with
  | [] => .error aggPlanningMsg
  | _ => .ok (cols.map fun c => (c.field.name, mk c))

/-- Modelled from the spec: engine `count` — the number of non-null
inputs, never NULL.  Numeric outputs are carried as `Value.float`
because the union step coerces every statistic column to `Float64`
(visible in the repository's own expected test tables, where `total`
prints as `5.0`). -/
def countAgg (vals : List (Option Value)) : Option Value :=
  some (.float (countSome vals : ℚ))

/-- The aggregate expression of `null_total` (describe.rs 167-182):
every row is mapped through `case(is_null(col)).when(true, 1).otherwise(0)`
— so 1 for NULL and 0 otherwise — and the results are summed by the
engine.  SQL `sum` over zero rows is NULL; over `n ≥ 1` rows it is the
number of NULL cells. -/
def sumCaseNullAgg (vals : List (Option Value)) : Option Value :=
  match vals with
  | [] => none
  | _ => some (.float (countNone vals : ℚ))

/-- Modelled from the spec: engine `avg` — arithmetic mean of the
non-null inputs, NULL when there are none. -/
def avgAgg (vals : List (Option Value)) : Option Value :=
  match ratsOf vals with
  | [] => none
  | x :: xs => some (.float ((x :: xs).sum / ((x :: xs).length : ℚ)))

/-- Modelled from the spec: engine sample `stddev` — NULL for fewer than
two non-null inputs, otherwise an engine-computed number kept symbolic
(no claim depends on it). -/
def stddevAgg (vals : List (Option Value)) : Option Value :=
  match ratsOf vals with
  | x :: y :: xs => some (.sym "stddev" (x :: y :: xs))
  | _ => none

/-- Modelled from the spec: engine `min` over the (numeric, after
normalization) inputs — NULL when there are none. -/
def minAgg (vals : List (Option Value)) : Option Value :=
  match ratsOf vals with
  | [] => none
  | x :: xs => some (.float (xs.foldl (fun a b => if a ≤ b then a else b) x))

/-- Modelled from the spec: engine `max` — NULL when there are no
non-null inputs. -/
def maxAgg (vals : List (Option Value)) : Option Value :=
  match ratsOf vals with
  | [] => none
  | x :: xs => some (.float (xs.foldl (fun a b => if a ≤ b then b else a) x))

/-- Modelled from the spec: engine `median` — NULL on no non-null
inputs, otherwise engine-computed, kept symbolic. -/
def medianAgg (vals : List (Option Value)) : Option Value :=
  match ratsOf vals with
  | [] => none
  | x :: xs => some (.sym "median" (x :: xs))

/-- Modelled from the spec: engine `approx_percentile_cont` with the
fixed centroid resolution 100 — NULL on no non-null inputs, otherwise
engine-computed, kept symbolic with its percentile tag. -/
def percentileAgg (p : Nat) (vals : List (Option Value)) : Option Value :=
  match ratsOf vals with
  | [] => none
  | x :: xs => some (.sym (String.append "percentile_" (toString p)) (x :: xs))

/-! ## The statistic catalog (`DescribeMethod`, describe.rs 12-21 and 53-66) -/

/-- The `DescribeMethod` enum.  The source stores the percentile as
`u8`; only the constants 50, 75, 90, 95, 99 are ever built, all within
range, so `Nat` is used here. -/
inductive DescribeMethod
  | total | nullTotal | mean | stddev | min | max | median
  | percentile (p : Nat)
deriving DecidableEq

/-- The `Display` impl of `DescribeMethod` (describe.rs 129-142). -/
def methodLabel : DescribeMethod → String
  | .total => "total"
  | .nullTotal => "null_total"
  | .mean => "mean"
  | .stddev => "stddev"
  | .min => "min"
  | .max => "max"
  | .median => "median"
  | .percentile p => String.append "percentile_" (toString p)

/-- The fixed catalog installed by `try_new` (describe.rs 53-66). -/
def methodsCatalog : List DescribeMethod :=
  [.total, .nullTotal, .mean, .stddev, .min, .max, .median,
   .percentile 50, .percentile 75, .percentile 90, .percentile 95, .percentile 99]

/-- The aggregate each method applies to a selected column. -/
def methodAgg : DescribeMethod → List (Option Value) → Option Value
  | .total => countAgg
  | .nullTotal => sumCaseNullAgg
  | .mean => avgAgg
  | .stddev => stddevAgg
  | .min => minAgg
  | .max => maxAgg
  | .median => medianAgg
  | .percentile p => percentileAgg p

/-- The columns a method aggregates over: the six `describe_method!`
macro instances (total, mean, std_div, minimum, maximum, med) filter the
schema by `is_numeric`; `null_total` and `percentile` iterate every
field (describe.rs 144-196). -/
def methodFields (m : DescribeMethod) (t : DFrame) : List Column :=
  match m with
  | .nullTotal | .percentile _ => t.cols
  | _ => t.cols.filter (fun c => c.field.dtype.isNumeric)

/-- One statistic builder call: one aggregate query over the selected
columns of the transformed relation, each aggregate aliased back to its
column name. -/
def runMethod (m : DescribeMethod) (t : DFrame) :
    Except String (List (String × Option Value)) :=
  aggregateRow (methodFields m t) (fun c => methodAgg m c.values)

/-! ## `do_describe` (describe.rs 75-101) -/

/-- One row of the intermediate/final summary relation: the `describe`
label plus one named cell per column. -/
structure StatRow where
  label : String
  cells : List (String × Option Value)
deriving DecidableEq

/-- Result of a describe run.  `aborted` models a Rust process abort
(an `.unwrap()` on an `Err`, or an explicit `panic!`); `failed` models a
returned `Err` (the `anyhow::Result` error path). -/
inductive Outcome (α : Type)
  | ok (a : α)
  | failed (msg : String)
  | aborted (msg : String)
deriving DecidableEq

/-- State of the fold inside `do_describe`: the accumulator
`Option<DataFrame>` of the source fold, or a pending abort raised by one
of the `.unwrap()` calls inside the closure. -/
inductive FoldSt
  | run (acc : Option (List StatRow))
  | abort (msg : String)
deriving DecidableEq

/-- One step of the `do_describe` fold: build the method's statistic
frame (`.unwrap()` aborts on a builder error), prefix the literal label
column `describe`, and union it onto the accumulator (`.unwrap()` aborts
on a schema mismatch; the source checks schema compatibility inside
`DataFrame::union`). -/
def describeStep (t : DFrame) (st : FoldSt) (m : DescribeMethod) : FoldSt :=
  match st with
  | .abort e => .abort e
  | .run acc =>
    match runMethod m t with
    | .error e => .abort e
    | .ok cells =>
      let row : StatRow := ⟨methodLabel m, cells⟩
      match acc with
      | none => .run (some [row])
      | some rows =>
        match rows.head? with
        | none => .run (some [row])
        | some r0 =>
          if r0.cells.map Prod.fst = cells.map Prod.fst
          then .run (some (rows ++ [row]))
          else .abort "union schema mismatch"

/-- `do_describe`: fold the catalog over the transformed relation, then
turn an empty accumulator into the `"No statistics found"` error. -/
def doDescribe (t : DFrame) : Outcome (List StatRow) :=
  match methodsCatalog.foldl (describeStep t) (.run none) with
  | .abort e => .aborted e
  | .run none => .failed "No statistics found"
  | .run (some rows) => .ok rows

/-! ## `cast_down` and the final sort (describe.rs 103-126) -/

/-- Truncating rational-to-integer conversion (the engine's
float-to-integer cast semantics, truncation toward zero). -/
def ratTrunc (q : ℚ) : Int :=
  q.num / (q.den : Int)

/-- The display cast `cast_down` applies per original column type:
temporal columns are cast back from `Float64` to the original temporal
type, list columns to `Int32`, everything else passes through. -/
def castDisplay (dt : DataType) (v : Value) : Value :=
  if dt.isTemporal then
    match v with
    | .float q => .temporal (ratTrunc q)
    | .int i => .temporal i
    | x => x
  else match dt with
    | .list _ | .largeList _ =>
      match v with
      | .float q => .int (ratTrunc q)
      | x => x
    | _ => v

/-- The `cast_down` select over one row's cells: for each original
schema field in order, look its column up (a missing name makes the
select fail, propagated with `?` in the source) and apply the display
cast; cast of NULL is NULL. -/
def castDownCells (flds : List Field) (cells : List (String × Option Value)) :
    Except String (List (String × Option Value)) :=
  match flds with
  | [] => .ok []
  | f :: fs =>
    match cells.lookup f.name with
    | none => .error (String.append "No field named " f.name)
    | some v =>
      match castDownCells fs cells with
      | .error e => .error e
      | .ok rest => .ok ((f.name, v.map (castDisplay f.dtype)) :: rest)

/-- `cast_down` applied to every row of the unioned frame (the leading
`describe` column is `Utf8`, hence hits the pass-through arm and keeps
the label unchanged). -/
def castDown (flds : List Field) : List StatRow → Except String (List StatRow)
  | [] => .ok []
  | r :: rs =>
    match castDownCells flds r.cells with
    | .error e => .error e
    | .ok cs =>
      match castDown flds rs with
      | .error e => .error e
      | .ok rest => .ok (⟨r.label, cs⟩ :: rest)

/-- Byte/character-wise lexicographic `≤` on character lists (the
engine's ascending `Utf8` sort order; identical to byte order on the
ASCII labels involved). -/
def lexLe : List Char → List Char → Bool
  | [], _ => true
  | _ :: _, [] => false
  | a :: as_, b :: bs =>
    if a < b then true
    else if a = b then lexLe as_ bs
    else false

/-- Strict lexicographic `<` on character lists. -/
def lexLt : List Char → List Char → Bool
  | [], [] => false
  | [], _ :: _ => true
  | _ :: _, [] => false
  | a :: as_, b :: bs =>
    if a < b then true
    else if a = b then lexLt as_ bs
    else false

/-- Whether a list of strings is strictly ascending in lexicographic
order. -/
def strAscending : List String → Bool
  | a :: b :: rest => lexLt a.data b.data && strAscending (b :: rest)
  | _ => true

/-- Lexicographic `≤` on strings, as a proposition. -/
def strLe (s t : String) : Prop :=
  lexLe s.data t.data = true

instance : DecidableRel strLe := fun s t =>
  inferInstanceAs (Decidable (_ = true))

/-- Row comparison used by the final `.sort(col("describe").sort(true, false))`:
ascending by the label string. -/
def rowLe (a b : StatRow) : Prop :=
  strLe a.label b.label

instance : DecidableRel rowLe := fun a b =>
  inferInstanceAs (Decidable (strLe _ _))

/-- The final sort of the summary rows by the `describe` column. -/
def sortRows (rows : List StatRow) : List StatRow :=
  rows.insertionSort rowLe

/-- The full active describe pipeline
(`DataFrameDescriber::describe = cast_down(do_describe())`):
builder/union failures abort (unwraps), `cast_down` failures are
returned as errors (`?`). -/
def dataFrameDescribe (df : DFrame) : Outcome (List StatRow) :=
  match doDescribe (transform df) with
  | .aborted e => .aborted e
  | .failed e => .failed e
  | .ok rows =>
    match castDown (df.cols.map (fun c => c.field)) rows with
    | .error e => .failed e
    | .ok rows2 => .ok (sortRows rows2)

/-! ## Accessors used by the claims -/

/-- The rows of a successful outcome (empty on failure). -/
def okRows (o : Outcome (List StatRow)) : List StatRow :=
  match o with
  | .ok rows => rows
  | _ => []

/-- Whether an outcome is a success. -/
def Outcome.isOk {α : Type} : Outcome α → Bool
  | .ok _ => true
  | _ => false

/-- Whether an outcome is the returned `"No statistics found"` error
(describe.rs 100). -/
def isNoStatsError {α : Type} : Outcome α → Bool
  | .failed m => m == "No statistics found"
  | _ => false

/-- The cell of the first row labelled `lbl` at column `cname`:
`none` when no such row or column exists, otherwise the (possibly NULL)
stored value. -/
def cellAt (st : List StatRow) (lbl cname : String) : Option (Option Value) :=
  (st.find? (fun r => r.label == lbl)).bind (fun r => r.cells.lookup cname)

/-- `cellAt` through a describe outcome. -/
def outCellAt (o : Outcome (List StatRow)) (lbl cname : String) :
    Option (Option Value) :=
  match o with
  | .ok st => cellAt st lbl cname
  | _ => none

/-- The numeric content of a summary cell. -/
def cellNum (st : List StatRow) (lbl cname : String) : Option ℚ :=
  (cellAt st lbl cname).bind (fun c => c.bind toRat)

/-! ## `DescribeDataFusion` (src/backend/datafusion.rs 121-316)

This implementation is source of the repository but is not reachable
from the crate root (`backend/mod.rs` declares only `pub mod describe;`,
never `mod datafusion;`).  Several spec sentences were written from it,
so it is embedded too. -/

/-- The seven statistics of `DescribeDataFusion`, in the order of both
the `supported_describe_functions` label vector and the
`describe_record_batch` result vector (which are aligned by index). -/
inductive DfuKind
  | count | nullCount | mean | std | min | max | median
deriving DecidableEq

/-- `describe_record_batch` construction order (datafusion.rs 156-164). -/
def dfuCatalog : List DfuKind :=
  [.count, .nullCount, .mean, .std, .min, .max, .median]

/-- The `supported_describe_functions` labels (datafusion.rs 130-131). -/
def dfuLabels : List String :=
  ["count", "null_count", "mean", "std", "min", "max", "median"]

/-- Which original-schema fields each statistic aggregates over:
`count`/`null_count` take every field; `mean`/`std`/`median` filter by
`is_numeric`; `min`/`max` exclude exactly `Binary` and `Boolean`
(datafusion.rs 222-315). -/
def dfuPred (k : DfuKind) (f : Field) : Bool :=
  match k with
  | .count | .nullCount => true
  | .mean | .std | .median => f.dtype.isNumeric
  | .min | .max => !(f.dtype == .binary || f.dtype == .boolean)

/-- The aggregate each `DescribeDataFusion` statistic applies. -/
def dfuAgg : DfuKind → List (Option Value) → Option Value
  | .count => countAgg
  | .nullCount => sumCaseNullAgg
  | .mean => avgAgg
  | .std => stddevAgg
  | .min => minAgg
  | .max => maxAgg
  | .median => medianAgg

/-- One `DescribeDataFusion` statistic builder: one aggregate query over
the fields satisfying the statistic's predicate. -/
def dfuRun (k : DfuKind) (df : DFrame) :
    Except String (List (String × Option Value)) :=
  aggregateRow (df.cols.filter (fun c => dfuPred k c.field))
    (fun c => dfuAgg k c.values)

/-- Substring containment, mirroring Rust `str::contains`. -/
def containsSub (s pat : String) : Bool :=
  s.data.tails.any (fun t => pat.data.isPrefixOf t)

/-- The display cast of a present aggregate cell
(datafusion.rs 180-188): a `Null`-typed column becomes the literal
`"null"`; a numeric original field is cast to `Float64`; anything else
is cast to `Utf8`.  The aggregate output column's type is `Null` exactly
when the original field's type is `Null`. -/
def dfuDisplayCell (f : Field) (v : Option Value) : Option Value :=
  if f.dtype == .nullType then some (.str "null")
  else v.map (fun x =>
    if f.dtype.isNumeric then
      match toRat x with
      | some q => .float q
      | none => x
    else .str (castToText x))

/-- Cell assembly for one field against one statistic's result
(datafusion.rs 170-206): a present column is display-cast; a column the
statistic did not produce (filtered out) becomes the `"null"`
placeholder; the specific "no aggregate expression" planning error is
tolerated as `"null"`; every other builder error hits the explicit
`panic!`. -/
def dfusionCell (f : Field) (res : Except String (List (String × Option Value))) :
    Outcome (Option Value) :=
  match res with
  | .ok cells =>
    match cells.lookup f.name with
    | some v => .ok (dfuDisplayCell f v)
    | none => .ok (some (.str "null"))
  | .error e =>
    if containsSub e aggPlanningMsg then .ok (some (.str "null"))
    else .aborted e

/-- The value a cell evaluates to when no abort happens. -/
def dfusionCellVal (f : Field)
    (res : Except String (List (String × Option Value))) : Option Value :=
  match dfusionCell f res with
  | .ok v => v
  | _ => none

/-- The seven statistic results, built once (datafusion.rs 156-164). -/
def dfuResults (df : DFrame) :
    List (Except String (List (String × Option Value))) :=
  dfuCatalog.map (fun k => dfuRun k df)

/-- The seven cells of one original field's output column, with abort
propagation. -/
def dfusionColumnCells (f : Field)
    (results : List (Except String (List (String × Option Value)))) :
    Outcome (List (Option Value)) :=
  match results with
  | [] => .ok []
  | r :: rs =>
    match dfusionCell f r with
    | .aborted e => .aborted e
    | .failed e => .failed e
    | .ok v =>
      match dfusionColumnCells f rs with
      | .aborted e => .aborted e
      | .failed e => .failed e
      | .ok vs => .ok (v :: vs)

/-- The per-field output columns, in original schema order. -/
def dfusionColumns (df : DFrame) :
    List Column → Outcome (List (String × List (Option Value)))
  | [] => .ok []
  | c :: cs =>
    match dfusionColumnCells c.field (dfuResults df) with
    | .aborted e => .aborted e
    | .failed e => .failed e
    | .ok vs =>
      match dfusionColumns df cs with
      | .aborted e => .aborted e
      | .failed e => .failed e
      | .ok rest => .ok ((c.field.name, vs) :: rest)

/-- `DescribeDataFusion::to_describe_record_batch`: the record batch as
the list of per-field columns (the leading `describe` column is the
constant `dfuLabels`). -/
def dfusionDescribe (df : DFrame) :
    Outcome (List (String × List (Option Value))) :=
  dfusionColumns df df.cols

/-- The cell of the `DescribeDataFusion` batch at statistic label `fn_`
and column `cname`. -/
def dfuCellAt (o : Outcome (List (String × List (Option Value))))
    (fn_ cname : String) : Option (Option Value) :=
  match o with
  | .ok cols =>
    (cols.lookup cname).bind (fun cs =>
      (dfuLabels.findIdx? (fun l => l == fn_)).bind (fun i => cs[i]?))
  | _ => none

/-! ## Helper rows of the active pipeline -/

/-- The cells of one statistic's one-row frame inside `do_describe`. -/
def rawRowCells (df : DFrame) (m : DescribeMethod) : List (String × Option Value) :=
  (transform df).cols.map fun c => (c.field.name, methodAgg m c.values)

/-- One labelled statistic row, before `cast_down`. -/
def rawRow (df : DFrame) (m : DescribeMethod) : StatRow :=
  ⟨methodLabel m, rawRowCells df m⟩

/-- The display-cast cell of the final summary at method `m`, original
field `f`. -/
def finalCell (df : DFrame) (m : DescribeMethod) (f : Field) : Option Value :=
  (((rawRowCells df m).lookup f.name).getD none).map (castDisplay f.dtype)

/-- One row of the summary after `cast_down` (before the final sort). -/
def finalRow (df : DFrame) (m : DescribeMethod) : StatRow :=
  ⟨methodLabel m,
   (df.cols.map (fun c => c.field)).map (fun f => (f.name, finalCell df m f))⟩

/-! ## Concrete example datasets -/

/-- A one-column dataset: a `Utf8` column `s` with one value `"ab"`. -/
def exStrDF : DFrame := ⟨[⟨⟨"s", .utf8⟩, [some (.str "ab")]⟩]⟩

/-- The single column of `exStrDF`. -/
def exStrCol : Column := ⟨⟨"s", .utf8⟩, [some (.str "ab")]⟩

/-- A one-column dataset: a `Boolean` column `b` with one value `true`. -/
def exBoolDF : DFrame := ⟨[⟨⟨"b", .boolean⟩, [some (.bool true)]⟩]⟩

/-- The single column of `exBoolDF`. -/
def exBoolCol : Column := ⟨⟨"b", .boolean⟩, [some (.bool true)]⟩

/-- A dataset with one `Int32` column `a` and zero rows. -/
def exNoRowsDF : DFrame := ⟨[⟨⟨"a", .int32⟩, []⟩]⟩

/-- A dataset with one `Int32` column `a`: one non-null row, one null row. -/
def exIntDF : DFrame := ⟨[⟨⟨"a", .int32⟩, [some (.int 1), none]⟩]⟩

/-- The single column of `exIntDF`. -/
def exIntCol : Column := ⟨⟨"a", .int32⟩, [some (.int 1), none]⟩

/-- The zero-column dataset. -/
def exEmptyDF : DFrame := ⟨[]⟩

/-- A sample field used in error-classification statements. -/
def exField : Field := ⟨"x", .int32⟩

/-! ## Basic lemmas -/

theorem normType_isNumeric (dt : DataType) : (normType dt).isNumeric = true := by
  cases dt <;> rfl

theorem normalizeValue_some_isSome (dt : DataType) (v : Value) :
    (normalizeValue dt (some v)).isSome = true := rfl

theorem countSome_map (g : Option Value → Option Value) (h0 : g none = none)
    (hs : ∀ v, (g (some v)).isSome = true) (vals : List (Option Value)) :
    countSome (vals.map g) = countSome vals := by
  induction vals with
  | nil => rfl
  | cons v vs ih =>
    cases v with
    | none => simpa [countSome, h0, List.filterMap_cons] using ih
    | some w =>
      have := hs w
      cases hg : g (some w) with
      | none => rw [hg] at this; simp at this
      | some u => simpa [countSome, hg, List.filterMap_cons] using ih

theorem countNone_map (g : Option Value → Option Value) (h0 : g none = none)
    (hs : ∀ v, (g (some v)).isSome = true) (vals : List (Option Value)) :
    countNone (vals.map g) = countNone vals := by
  induction vals with
  | nil => rfl
  | cons v vs ih =>
    cases v with
    | none => simpa [countNone, h0, List.filter_cons] using ih
    | some w =>
      have := hs w
      cases hg : g (some w) with
      | none => rw [hg] at this; simp at this
      | some u => simpa [countNone, hg, List.filter_cons] using ih

theorem aggregateRow_ok (cols : List Column) (mk : Column → Option Value)
    (h : cols ≠ []) :
    aggregateRow cols mk = .ok (cols.map fun c => (c.field.name, mk c)) := by
  cases cols with
  | nil => exact absurd rfl h
  | cons c cs => rfl

theorem methodFields_of_numeric (m : DescribeMethod) (t : DFrame)
    (h : ∀ c ∈ t.cols, c.field.dtype.isNumeric = true) :
    methodFields m t = t.cols := by
  cases m <;> simp only [methodFields] <;> rw [List.filter_eq_self] <;> exact h

theorem transform_names (df : DFrame) :
    (transform df).cols.map (fun c => c.field.name) =
      df.cols.map (fun c => c.field.name) := by
  simp [transform, normalizeColumn, List.map_map, Function.comp]

theorem transform_numeric (df : DFrame) :
    ∀ c ∈ (transform df).cols, c.field.dtype.isNumeric = true := by
  intro c hc
  rcases List.mem_map.mp hc with ⟨c0, _, rfl⟩
  exact normType_isNumeric _

theorem transform_ne_nil (df : DFrame) (h : df.cols ≠ []) :
    (transform df).cols ≠ [] := by
  simpa [transform] using h

theorem runMethod_transform_ok (df : DFrame) (m : DescribeMethod)
    (h : df.cols ≠ []) :
    runMethod m (transform df) = .ok (rawRowCells df m) := by
  unfold runMethod
  rw [methodFields_of_numeric m (transform df) (transform_numeric df)]
  exact aggregateRow_ok _ _ (transform_ne_nil df h)

theorem rawRowCells_keys (df : DFrame) (m : DescribeMethod) :
    (rawRowCells df m).map Prod.fst = df.cols.map (fun c => c.field.name) := by
  simp [rawRowCells, transform, normalizeColumn, List.map_map, Function.comp]

/-! ## The `do_describe` fold -/

theorem foldl_describeStep_abort (t : DFrame) (ms : List DescribeMethod)
    (e : String) : ms.foldl (describeStep t) (.abort e) = .abort e := by
  induction ms with
  | nil => rfl
  | cons m ms ih => simpa [describeStep] using ih

theorem foldl_describeStep_run (df : DFrame) (h : df.cols ≠ [])
    (ms : List DescribeMethod) :
    ∀ (acc : List StatRow)
      (hk : ∀ r ∈ acc, r.cells.map Prod.fst = df.cols.map (fun c => c.field.name))
      (_ : acc ≠ []),
      ms.foldl (describeStep (transform df)) (.run (some acc)) =
        .run (some (acc ++ ms.map (rawRow df))) := by
  induction ms with
  | nil => intro acc _ _; simp
  | cons m ms ih =>
    intro acc hk hne
    obtain ⟨r0, rest, rfl⟩ : ∃ r0 rest, acc = r0 :: rest := by
      cases acc with
      | nil => exact absurd rfl hne
      | cons a l => exact ⟨a, l, rfl⟩
    have hkeys0 : r0.cells.map Prod.fst = df.cols.map (fun c => c.field.name) :=
      hk r0 (by simp)
    have hstep :
        describeStep (transform df) (.run (some (r0 :: rest))) m =
          .run (some ((r0 :: rest) ++ [rawRow df m])) := by
      simp only [describeStep, runMethod_transform_ok df m h, List.head?]
      rw [if_pos (by rw [hkeys0, rawRowCells_keys])]
      rfl
    rw [List.foldl_cons, hstep,
        ih ((r0 :: rest) ++ [rawRow df m])
          (by
            intro r hr
            rcases List.mem_append.mp hr with hr | hr
            · exact hk r hr
            · rcases List.mem_singleton.mp hr with rfl
              exact rawRowCells_keys df m)
          (by simp)]
    simp

theorem foldl_describeStep_none (df : DFrame) (h : df.cols ≠ [])
    (m : DescribeMethod) (ms : List DescribeMethod) :
    (m :: ms).foldl (describeStep (transform df)) (.run none) =
      .run (some ((m :: ms).map (rawRow df))) := by
  have h1 : describeStep (transform df) (.run none) m =
      .run (some [rawRow df m]) := by
    simp [describeStep, runMethod_transform_ok df m h, rawRow]
  rw [List.foldl_cons, h1,
      foldl_describeStep_run df h ms [rawRow df m]
        (by
          intro r hr
          rcases List.mem_singleton.mp hr with rfl
          exact rawRowCells_keys df m)
        (by simp)]
  simp

theorem doDescribe_transform_ok (df : DFrame) (h : df.cols ≠ []) :
    doDescribe (transform df) = .ok (methodsCatalog.map (rawRow df)) := by
  unfold doDescribe
  rw [show methodsCatalog.foldl (describeStep (transform df)) (.run none) =
        .run (some (methodsCatalog.map (rawRow df))) from
      foldl_describeStep_none df h _ _]

theorem doDescribe_transform_empty (df : DFrame) (h : df.cols = []) :
    doDescribe (transform df) = .aborted aggPlanningMsg := by
  unfold doDescribe
  have habort : ∀ (m : DescribeMethod) (ms : List DescribeMethod),
      (m :: ms).foldl (describeStep (transform df)) (.run none) =
        .abort aggPlanningMsg := by
    intro m ms
    have hcols : (transform df).cols = [] := by simp [transform, h]
    have hfields : methodFields m (transform df) = [] := by
      cases m <;> simp [methodFields, hcols]
    have hrun : runMethod m (transform df) = .error aggPlanningMsg := by
      rw [runMethod, hfields]; rfl
    have h1 : describeStep (transform df) (.run none) m =
        .abort aggPlanningMsg := by
      simp [describeStep, hrun]
    rw [List.foldl_cons, h1, foldl_describeStep_abort]
  rw [show methodsCatalog.foldl (describeStep (transform df)) (.run none) =
        .abort aggPlanningMsg from habort _ _]

/-! ## Association-list lookup lemmas -/

theorem lookup_eq_some_of_mem_keys {β : Type} (n : String)
    (l : List (String × β)) (h : n ∈ l.map Prod.fst) :
    ∃ v, l.lookup n = some v := by
  induction l with
  | nil => simp at h
  | cons p l ih =>
    obtain ⟨k, b⟩ := p
    by_cases hn : n = k
    · exact ⟨b, by simp [List.lookup, hn]⟩
    · have hmem : n ∈ l.map Prod.fst := by
        rcases List.mem_cons.mp h with h1 | h1
        · exact absurd h1 hn
        · exact h1
      obtain ⟨v, hv⟩ := ih hmem
      refine ⟨v, ?_⟩
      simp only [List.lookup, hv]
      rw [show (n == k) = false from beq_eq_false_iff_ne.mpr hn]

theorem lookup_eq_none_of_not_mem_keys {β : Type} (n : String)
    (l : List (String × β)) (h : n ∉ l.map Prod.fst) :
    l.lookup n = none := by
  induction l with
  | nil => rfl
  | cons p l ih =>
    obtain ⟨k, b⟩ := p
    have hn : n ≠ k := fun he => h (by simp [he])
    have hmem : n ∉ l.map Prod.fst := fun hm => h (by simp [hm])
    simp only [List.lookup, ih hmem]
    rw [show (n == k) = false from beq_eq_false_iff_ne.mpr hn]

theorem lookup_map_key {α β : Type} (l : List α) (key : α → String)
    (g : α → β) (a : α) (hmem : a ∈ l) (hnd : (l.map key).Nodup) :
    (l.map (fun x => (key x, g x))).lookup (key a) = some (g a) := by
  induction l with
  | nil => simp at hmem
  | cons b l ih =>
    rcases List.mem_cons.mp hmem with rfl | hmem
    · simp [List.lookup]
    · have hne : key a ≠ key b := by
        intro he
        exact (List.nodup_cons.mp hnd).1 (he ▸ List.mem_map_of_mem key hmem)
      simp only [List.map_cons, List.lookup]
      rw [show (key a == key b) = false from beq_eq_false_iff_ne.mpr hne]
      exact ih hmem (List.nodup_cons.mp hnd).2

/-! ## `cast_down` lemmas -/

theorem castDownCells_ok (flds : List Field)
    (cells : List (String × Option Value))
    (h : ∀ f ∈ flds, f.name ∈ cells.map Prod.fst) :
    castDownCells flds cells =
      .ok (flds.map (fun f =>
        (f.name, ((cells.lookup f.name).getD none).map (castDisplay f.dtype)))) := by
  induction flds with
  | nil => rfl
  | cons f fs ih =>
    obtain ⟨v, hv⟩ := lookup_eq_some_of_mem_keys f.name cells (h f (by simp))
    rw [castDownCells, hv, ih (fun g hg => h g (by simp [hg]))]
    simp [hv]

theorem castDown_ok (flds : List Field) (rows : List StatRow)
    (h : ∀ r ∈ rows, ∀ f ∈ flds, f.name ∈ r.cells.map Prod.fst) :
    castDown flds rows = .ok (rows.map (fun r =>
      ⟨r.label, flds.map (fun f =>
        (f.name, ((r.cells.lookup f.name).getD none).map (castDisplay f.dtype)))⟩)) := by
  induction rows with
  | nil => rfl
  | cons r rs ih =>
    rw [castDown, castDownCells_ok flds r.cells (h r (by simp)),
        ih (fun r' hr' => h r' (by simp [hr']))]
    rfl

/-! ## The full active pipeline -/

theorem dataFrameDescribe_empty (df : DFrame) (h : df.cols = []) :
    dataFrameDescribe df = .aborted aggPlanningMsg := by
  unfold dataFrameDescribe
  rw [doDescribe_transform_empty df h]

theorem dataFrameDescribe_ok (df : DFrame) (h : df.cols ≠ []) :
    dataFrameDescribe df = .ok (sortRows (methodsCatalog.map (finalRow df))) := by
  unfold dataFrameDescribe
  rw [doDescribe_transform_ok df h]
  show (match castDown (df.cols.map (fun c => c.field))
          (methodsCatalog.map (rawRow df)) with
        | .error e => Outcome.failed e
        | .ok rows2 => Outcome.ok (sortRows rows2)) =
      Outcome.ok (sortRows (methodsCatalog.map (finalRow df)))
  rw [castDown_ok (df.cols.map (fun c => c.field)) (methodsCatalog.map (rawRow df))
      (by
        intro r hr f hf
        rcases List.mem_map.mp hr with ⟨m, _, rfl⟩
        rcases List.mem_map.mp hf with ⟨c, hc, rfl⟩
        rw [show (rawRow df m).cells = rawRowCells df m from rfl, rawRowCells_keys]
        exact List.mem_map_of_mem _ hc)]
  rw [List.map_map]
  rfl

theorem dataFrameDescribe_ok_inv (df : DFrame) (st : List StatRow)
    (hok : dataFrameDescribe df = .ok st) :
    df.cols ≠ [] ∧ st = sortRows (methodsCatalog.map (finalRow df)) := by
  rcases eq_or_ne df.cols [] with h | h
  · rw [dataFrameDescribe_empty df h] at hok
    exact absurd hok (by simp)
  · refine ⟨h, ?_⟩
    rw [dataFrameDescribe_ok df h] at hok
    exact (Outcome.ok.injEq _ _ ▸ hok.symm)

/-! ## Sort lemmas -/

theorem map_label_orderedInsert (r : StatRow) (l : List StatRow) :
    (List.orderedInsert rowLe r l).map (fun x => x.label) =
      List.orderedInsert strLe r.label (l.map (fun x => x.label)) := by
  induction l with
  | nil => rfl
  | cons b l ih =>
    by_cases hb : rowLe r b
    · rw [List.orderedInsert, if_pos hb, List.map_cons, List.map_cons,
          List.orderedInsert, if_pos (show strLe r.label b.label from hb)]
    · rw [List.orderedInsert, if_neg hb, List.map_cons, List.map_cons,
          List.orderedInsert,
          if_neg (show ¬strLe r.label b.label from hb), ih]

theorem map_label_sortRows (rows : List StatRow) :
    (sortRows rows).map (fun x => x.label) =
      (rows.map (fun x => x.label)).insertionSort strLe := by
  induction rows with
  | nil => rfl
  | cons r l ih =>
    rw [show sortRows (r :: l) =
          List.orderedInsert rowLe r (sortRows l) from rfl,
        map_label_orderedInsert, ih, List.map_cons, List.insertionSort]

theorem sortRows_perm (rows : List StatRow) :
    List.Perm (sortRows rows) rows :=
  List.perm_insertionSort rowLe rows

theorem find_label_of_nodup (l : List StatRow) (r : StatRow) (lbl : String)
    (hmem : r ∈ l) (hlbl : r.label = lbl)
    (hnd : (l.map (fun x => x.label)).Nodup) :
    l.find? (fun x => x.label == lbl) = some r := by
  induction l with
  | nil => simp at hmem
  | cons a l ih =>
    rcases List.mem_cons.mp hmem with rfl | hmem
    · rw [List.find?_cons_of_pos]
      simp [hlbl]
    · have ha : a.label ≠ lbl := by
        intro he
        exact (List.nodup_cons.mp hnd).1
          (show a.label ∈ l.map (fun x => x.label) by
            rw [he, ← hlbl]
            exact List.mem_map_of_mem (fun x => x.label) hmem)
      rw [List.find?_cons_of_neg _ (by simpa using ha)]
      exact ih hmem (List.nodup_cons.mp hnd).2

/-- Retrieving a row of the sorted summary by its (unique) label. -/
theorem cellAt_sortRows (rows : List StatRow) (r : StatRow) (lbl cname : String)
    (hmem : r ∈ rows) (hlbl : r.label = lbl)
    (hnd : (rows.map (fun x => x.label)).Nodup) :
    cellAt (sortRows rows) lbl cname = r.cells.lookup cname := by
  unfold cellAt
  rw [find_label_of_nodup (sortRows rows) r lbl
        (((sortRows_perm rows).mem_iff).mpr hmem) hlbl
        (by
          have hp : List.Perm ((sortRows rows).map (fun x => x.label))
              (rows.map (fun x => x.label)) := (sortRows_perm rows).map _
          exact hp.nodup_iff.mpr hnd)]
  rfl

/-! ## Cell value lemmas -/

theorem toRat_castDisplay_natCast (dt : DataType) (n : Nat) :
    toRat (castDisplay dt (.float (n : ℚ))) = some (n : ℚ) := by
  cases dt <;>
    simp [castDisplay, toRat, ratTrunc, DataType.isTemporal,
      Rat.num_natCast, Rat.den_natCast]

theorem rawRowCells_eq_map (df : DFrame) (m : DescribeMethod) :
    rawRowCells df m = df.cols.map (fun x =>
      (x.field.name, methodAgg m ((normalizeColumn x).values))) := by
  simp only [rawRowCells, transform, List.map_map]
  rfl

theorem rawRowCells_lookup (df : DFrame) (m : DescribeMethod) (c : Column)
    (hc : c ∈ df.cols)
    (hnd : (df.cols.map (fun x => x.field.name)).Nodup) :
    (rawRowCells df m).lookup c.field.name =
      some (methodAgg m ((normalizeColumn c).values)) := by
  rw [rawRowCells_eq_map]
  exact lookup_map_key df.cols (fun x => x.field.name)
    (fun x => methodAgg m ((normalizeColumn x).values)) c hc hnd

theorem countSome_normalizeColumn (c : Column) :
    countSome ((normalizeColumn c).values) = countSome c.values :=
  countSome_map (normalizeValue c.field.dtype) rfl
    (fun v => normalizeValue_some_isSome c.field.dtype v) c.values

theorem countNone_normalizeColumn (c : Column) :
    countNone ((normalizeColumn c).values) = countNone c.values :=
  countNone_map (normalizeValue c.field.dtype) rfl
    (fun v => normalizeValue_some_isSome c.field.dtype v) c.values

theorem sumCaseNullAgg_ne_nil (vals : List (Option Value)) (h : vals ≠ []) :
    sumCaseNullAgg vals = some (.float (countNone vals : ℚ)) := by
  cases vals with
  | nil => exact absurd rfl h
  | cons v vs => rfl

theorem finalCell_total (df : DFrame) (c : Column) (hc : c ∈ df.cols)
    (hnd : (df.cols.map (fun x => x.field.name)).Nodup) :
    finalCell df .total c.field =
      some (castDisplay c.field.dtype (.float (countSome c.values : ℚ))) := by
  unfold finalCell
  rw [rawRowCells_lookup df .total c hc hnd]
  simp [methodAgg, countAgg, countSome_normalizeColumn]

theorem finalCell_nullTotal (df : DFrame) (c : Column) (hc : c ∈ df.cols)
    (hnd : (df.cols.map (fun x => x.field.name)).Nodup)
    (hv : c.values ≠ []) :
    finalCell df .nullTotal c.field =
      some (castDisplay c.field.dtype (.float (countNone c.values : ℚ))) := by
  unfold finalCell
  rw [rawRowCells_lookup df .nullTotal c hc hnd]
  have hne : (normalizeColumn c).values ≠ [] := by
    simpa [normalizeColumn] using hv
  simp [methodAgg, sumCaseNullAgg_ne_nil _ hne, countNone_normalizeColumn]

theorem finalRows_labels (df : DFrame) :
    (methodsCatalog.map (finalRow df)).map (fun r => r.label) =
      methodsCatalog.map methodLabel := by
  rw [List.map_map]
  rfl

theorem finalRows_labels_nodup (df : DFrame) :
    ((methodsCatalog.map (finalRow df)).map (fun r => r.label)).Nodup := by
  rw [finalRows_labels]
  decide

theorem cellAt_describe (df : DFrame) (m : DescribeMethod) (cname : String)
    (hm : m ∈ methodsCatalog) :
    cellAt (sortRows (methodsCatalog.map (finalRow df))) (methodLabel m) cname =
      (finalRow df m).cells.lookup cname :=
  cellAt_sortRows _ (finalRow df m) _ cname
    (List.mem_map_of_mem _ hm) rfl (finalRows_labels_nodup df)

theorem finalRow_lookup (df : DFrame) (m : DescribeMethod) (c : Column)
    (hc : c ∈ df.cols)
    (hnd : (df.cols.map (fun x => x.field.name)).Nodup) :
    (finalRow df m).cells.lookup c.field.name = some (finalCell df m c.field) := by
  show ((df.cols.map (fun x => x.field)).map
      (fun f => (f.name, finalCell df m f))).lookup c.field.name = _
  rw [List.map_map]
  exact lookup_map_key df.cols (fun x => x.field.name)
    (fun x => finalCell df m x.field) c hc hnd

/-! ## `DescribeDataFusion` lemmas -/

theorem isPrefixOf_self (l : List Char) : l.isPrefixOf l = true := by
  induction l with
  | nil => rfl
  | cons a l ih => simp [List.isPrefixOf, ih]

theorem containsSub_self (s : String) : containsSub s s = true := by
  unfold containsSub
  cases hd : s.data with
  | nil => rfl
  | cons a l =>
    simp [List.tails, isPrefixOf_self]

theorem dfuRun_error_planning (k : DfuKind) (df : DFrame) (e : String)
    (h : dfuRun k df = .error e) : e = aggPlanningMsg := by
  unfold dfuRun aggregateRow at h
  cases hf : df.cols.filter (fun c => dfuPred k c.field) with
  | nil =>
    rw [hf] at h
    injection h with h1
    exact h1.symm
  | cons a l =>
    rw [hf] at h
    exact Except.noConfusion h

theorem dfusionCell_eq_ok_val (f : Field)
    (res : Except String (List (String × Option Value)))
    (h : ∀ e, res = .error e → containsSub e aggPlanningMsg = true) :
    dfusionCell f res = .ok (dfusionCellVal f res) := by
  cases res with
  | ok cells =>
    unfold dfusionCell dfusionCellVal
    cases hl : cells.lookup f.name <;> simp [dfusionCell, hl]
  | error e =>
    have he := h e rfl
    simp [dfusionCell, dfusionCellVal, he]

theorem dfusionCell_run_ok (f : Field) (k : DfuKind) (df : DFrame) :
    dfusionCell f (dfuRun k df) = .ok (dfusionCellVal f (dfuRun k df)) := by
  apply dfusionCell_eq_ok_val
  intro e he
  rw [dfuRun_error_planning k df e he]
  exact containsSub_self _

theorem dfusionColumnCells_map (f : Field) (df : DFrame) (ks : List DfuKind) :
    dfusionColumnCells f (ks.map (fun k => dfuRun k df)) =
      .ok ((ks.map (fun k => dfuRun k df)).map (dfusionCellVal f)) := by
  induction ks with
  | nil => rfl
  | cons k ks ih =>
    rw [List.map_cons, dfusionColumnCells, dfusionCell_run_ok f k df, ih]
    rfl

theorem dfusionColumns_ok (df : DFrame) (cs : List Column) :
    dfusionColumns df cs = .ok (cs.map (fun c =>
      (c.field.name, (dfuResults df).map (dfusionCellVal c.field)))) := by
  induction cs with
  | nil => rfl
  | cons c cs ih =>
    rw [dfusionColumns,
        show dfusionColumnCells c.field (dfuResults df) =
          .ok ((dfuResults df).map (dfusionCellVal c.field)) from
        dfusionColumnCells_map c.field df dfuCatalog,
        ih]
    rfl

theorem dfuCellAt_eq (df : DFrame) (c : Column) (fn_ : String)
    (hnd : (df.cols.map (fun x => x.field.name)).Nodup) (hc : c ∈ df.cols) :
    dfuCellAt (dfusionDescribe df) fn_ c.field.name =
      (dfuLabels.findIdx? (fun l => l == fn_)).bind
        (fun i => ((dfuResults df).map (dfusionCellVal c.field))[i]?) := by
  unfold dfusionDescribe
  rw [dfusionColumns_ok df df.cols]
  have hl := lookup_map_key df.cols (fun x => x.field.name)
    (fun x => (dfuResults df).map (dfusionCellVal x.field)) c hc hnd
  simp [dfuCellAt, hl]

theorem dfuCellVal_filtered (df : DFrame) (c : Column) (k : DfuKind)
    (hnd : (df.cols.map (fun x => x.field.name)).Nodup)
    (hc : c ∈ df.cols) (hp : dfuPred k c.field = false) :
    dfusionCellVal c.field (dfuRun k df) = some (.str "null") := by
  unfold dfuRun
  cases hf : df.cols.filter (fun x => dfuPred k x.field) with
  | nil =>
    simp [aggregateRow, dfusionCellVal, dfusionCell, containsSub_self]
  | cons d ds =>
    have hnotmem : c.field.name ∉ (d :: ds).map (fun x => x.field.name) := by
      intro hm
      obtain ⟨d', hd', hname⟩ := List.mem_map.mp hm
      have hd'f : d' ∈ df.cols.filter (fun x => dfuPred k x.field) := by
        rw [hf]; exact hd'
      obtain ⟨hd'cols, hd'pred⟩ := List.mem_filter.mp hd'f
      have hdc : d' = c := List.inj_on_of_nodup_map hnd hd'cols hc hname
      rw [hdc, hp] at hd'pred
      exact Bool.noConfusion hd'pred
    have hlook : ((d :: ds).map
        (fun x => (x.field.name, dfuAgg k x.values))).lookup c.field.name = none := by
      apply lookup_eq_none_of_not_mem_keys
      rw [List.map_map]
      exact hnotmem
    rw [List.map_cons] at hlook
    simp [aggregateRow, dfusionCellVal, dfusionCell, hlook]

/-! ## Claim theorems -/

/-- C1 (counterexample): the claim "for every column whose declared type
is not Numeric, the Mean/Stddev/Median cells of the SummaryTable
returned by describe are the literal `\"null\"`" is false for the
describe actually invoked by the backend (`DataFrameDescriber`): on a
dataset with a single `Utf8` column `s` holding `"ab"`, the Mean cell is
the number 2 — the average of the normalized string length — and not
the placeholder `"null"`. -/
theorem claim1_counterexample :
    outCellAt (dataFrameDescribe exStrDF) "mean" "s" = some (some (.float 2)) ∧
    outCellAt (dataFrameDescribe exStrDF) "mean" "s" ≠
      some (some (.str "null")) := by
  have h2 : outCellAt (dataFrameDescribe exStrDF) "mean" "s" =
      some (some (.float 2)) := by
    rw [dataFrameDescribe_ok exStrDF (by decide)]
    show cellAt (sortRows (methodsCatalog.map (finalRow exStrDF))) "mean" "s" = _
    rw [show ("mean" : String) = methodLabel .mean from rfl,
        cellAt_describe exStrDF .mean "s" (by decide),
        show ("s" : String) = exStrCol.field.name from rfl,
        finalRow_lookup exStrDF .mean exStrCol (by decide) (by decide)]
    unfold finalCell
    rw [rawRowCells_lookup exStrDF .mean exStrCol (by decide) (by decide)]
    simp only [methodAgg, avgAgg, normalizeColumn, normalizeValue, exStrCol,
      ratsOf, toRat, castToText, List.map_cons, List.map_nil,
      List.filterMap_cons, List.filterMap_nil, castDisplay,
      DataType.isTemporal, DataType.isNumeric]
    norm_num [castDisplay, DataType.isTemporal, show "ab".length = 2 from rfl]
  exact ⟨h2, by rw [h2]; decide⟩

/-- C1 (amended): only the unused `DescribeDataFusion` implementation
behaves as claimed — there, for every column whose declared type is not
numeric, the Mean, Stddev ("std") and Median cells are the literal
placeholder `"null"`; the active `DataFrameDescriber` describe instead
evaluates these statistics over the normalized value of every column. -/
theorem claim1_mean_null_nonnumeric (df : DFrame) (c : Column)
    (hnd : (df.cols.map (fun x => x.field.name)).Nodup)
    (hc : c ∈ df.cols) (hnum : c.field.dtype.isNumeric = false) :
    dfuCellAt (dfusionDescribe df) "mean" c.field.name =
      some (some (.str "null")) ∧
    dfuCellAt (dfusionDescribe df) "std" c.field.name =
      some (some (.str "null")) ∧
    dfuCellAt (dfusionDescribe df) "median" c.field.name =
      some (some (.str "null")) := by
  refine ⟨?_, ?_, ?_⟩
  · rw [dfuCellAt_eq df c "mean" hnd hc,
        show (dfuLabels.findIdx? (fun l => l == "mean")).bind
            (fun i => ((dfuResults df).map (dfusionCellVal c.field))[i]?) =
          some (dfusionCellVal c.field (dfuRun .mean df)) from rfl,
        dfuCellVal_filtered df c .mean hnd hc hnum]
  · rw [dfuCellAt_eq df c "std" hnd hc,
        show (dfuLabels.findIdx? (fun l => l == "std")).bind
            (fun i => ((dfuResults df).map (dfusionCellVal c.field))[i]?) =
          some (dfusionCellVal c.field (dfuRun .std df)) from rfl,
        dfuCellVal_filtered df c .std hnd hc hnum]
  · rw [dfuCellAt_eq df c "median" hnd hc,
        show (dfuLabels.findIdx? (fun l => l == "median")).bind
            (fun i => ((dfuResults df).map (dfusionCellVal c.field))[i]?) =
          some (dfusionCellVal c.field (dfuRun .median df)) from rfl,
        dfuCellVal_filtered df c .median hnd hc hnum]

/-- C1 (witness): the amended statement at the concrete one-string-column
dataset. -/
theorem claim1_witness :
    dfuCellAt (dfusionDescribe exStrDF) "mean" "s" =
      some (some (.str "null")) ∧
    dfuCellAt (dfusionDescribe exStrDF) "std" "s" =
      some (some (.str "null")) ∧
    dfuCellAt (dfusionDescribe exStrDF) "median" "s" =
      some (some (.str "null")) :=
  claim1_mean_null_nonnumeric exStrDF exStrCol (by decide) (by decide) (by decide)

/-- C2 (counterexample): the claim "for every column whose declared type
is Boolean or Binary, the Min and Max cells of the SummaryTable returned
by describe are the literal `\"null\"`" is false for the active
`DataFrameDescriber` describe: on a dataset with one `Boolean` column
`b` holding `true`, the Min cell is the number 4 — the minimum of the
normalized length of the text `"true"` — not `"null"`. -/
theorem claim2_counterexample :
    outCellAt (dataFrameDescribe exBoolDF) "min" "b" = some (some (.float 4)) ∧
    outCellAt (dataFrameDescribe exBoolDF) "min" "b" ≠
      some (some (.str "null")) := by
  decide

/-- C2 (amended): only the unused `DescribeDataFusion` implementation
behaves as claimed — there, for every column whose declared type is
`Boolean` or `Binary`, the Min and Max cells are the literal placeholder
`"null"`; the active `DataFrameDescriber` describe instead computes
Min/Max over the normalized value of every column. -/
theorem claim2_minmax_null_boolbinary (df : DFrame) (c : Column)
    (hnd : (df.cols.map (fun x => x.field.name)).Nodup)
    (hc : c ∈ df.cols)
    (hb : c.field.dtype = .boolean ∨ c.field.dtype = .binary) :
    dfuCellAt (dfusionDescribe df) "min" c.field.name =
      some (some (.str "null")) ∧
    dfuCellAt (dfusionDescribe df) "max" c.field.name =
      some (some (.str "null")) := by
  have hpmin : dfuPred .min c.field = false := by
    rcases hb with h | h <;> simp [dfuPred, h]
  have hpmax : dfuPred .max c.field = false := by
    rcases hb with h | h <;> simp [dfuPred, h]
  refine ⟨?_, ?_⟩
  · rw [dfuCellAt_eq df c "min" hnd hc,
        show (dfuLabels.findIdx? (fun l => l == "min")).bind
            (fun i => ((dfuResults df).map (dfusionCellVal c.field))[i]?) =
          some (dfusionCellVal c.field (dfuRun .min df)) from rfl,
        dfuCellVal_filtered df c .min hnd hc hpmin]
  · rw [dfuCellAt_eq df c "max" hnd hc,
        show (dfuLabels.findIdx? (fun l => l == "max")).bind
            (fun i => ((dfuResults df).map (dfusionCellVal c.field))[i]?) =
          some (dfusionCellVal c.field (dfuRun .max df)) from rfl,
        dfuCellVal_filtered df c .max hnd hc hpmax]

/-- C2 (witness): the amended statement at the concrete one-boolean-column
dataset. -/
theorem claim2_witness :
    dfuCellAt (dfusionDescribe exBoolDF) "min" "b" =
      some (some (.str "null")) ∧
    dfuCellAt (dfusionDescribe exBoolDF) "max" "b" =
      some (some (.str "null")) :=
  claim2_minmax_null_boolbinary exBoolDF exBoolCol (by decide) (by decide)
    (Or.inl rfl)

/-- C3 (counterexample): the claim "the no-aggregate-expression planning
failure is treated as a tolerated `\"null\"` marker, and every other
engine error propagates to the describe caller as an error result" is
false on the code: in the active `DataFrameDescriber` describe, the
planning failure (zero-column dataset) hits an `.unwrap()` and aborts
the process rather than being tolerated; and in `DescribeDataFusion`,
a non-planning engine error hits the explicit `panic!` instead of being
returned as an error result. -/
theorem claim3_counterexample :
    dataFrameDescribe exEmptyDF = .aborted aggPlanningMsg ∧
    dfusionCell exField (.error "External error: boom") =
      .aborted "External error: boom" := by
  decide

/-- C3 (amended): the planning failure is tolerated as a `"null"` cell
only in the unused `DescribeDataFusion` path; the active describe aborts
(panics through `.unwrap()`) on it, since for a zero-column dataset
every builder reports the planning error.  In `DescribeDataFusion`,
every other engine error aborts (the explicit `panic!`) instead of
propagating as an error result.  In no failure case is a partial
SummaryTable produced. -/
theorem claim3_error_policy :
    (∀ df : DFrame, df.cols = [] →
      dataFrameDescribe df = .aborted aggPlanningMsg) ∧
    (∀ (f : Field) (e : String), containsSub e aggPlanningMsg = true →
      dfusionCell f (.error e) = .ok (some (.str "null"))) ∧
    (∀ (f : Field) (e : String), containsSub e aggPlanningMsg = false →
      dfusionCell f (.error e) = .aborted e) := by
  refine ⟨fun df h => dataFrameDescribe_empty df h, ?_, ?_⟩
  · intro f e he
    simp [dfusionCell, he]
  · intro f e he
    simp [dfusionCell, he]

/-- C3 (witness): the amended statement at concrete inputs — the
zero-column dataset, the planning-error text itself, and the
non-planning error `"boom"`. -/
theorem claim3_witness :
    dataFrameDescribe exEmptyDF = .aborted aggPlanningMsg ∧
    dfusionCell exField (.error aggPlanningMsg) =
      .ok (some (.str "null")) ∧
    dfusionCell exField (.error "boom") = .aborted "boom" :=
  ⟨claim3_error_policy.1 exEmptyDF rfl,
   claim3_error_policy.2.1 exField aggPlanningMsg (containsSub_self _),
   claim3_error_policy.2.2 exField "boom" (by decide)⟩

/-- C4: for every dataset whose describe succeeds, every row of the
returned SummaryTable carries, after the leading `describe` label,
exactly the original dataset's column names in the original schema
order. -/
theorem claim4_schema (df : DFrame) (st : List StatRow)
    (hok : dataFrameDescribe df = .ok st) :
    (st.all (fun r => r.cells.map Prod.fst ==
      df.cols.map (fun c => c.field.name))) = true := by
  obtain ⟨hne, rfl⟩ := dataFrameDescribe_ok_inv df st hok
  rw [List.all_eq_true]
  intro r hr
  have hr2 : r ∈ methodsCatalog.map (finalRow df) :=
    ((sortRows_perm _).mem_iff).mp hr
  obtain ⟨m, _, rfl⟩ := List.mem_map.mp hr2
  rw [beq_iff_eq]
  show ((df.cols.map (fun x => x.field)).map
      (fun f => (f.name, finalCell df m f))).map Prod.fst = _
  rw [List.map_map, List.map_map]
  rfl

/-- C4 (witness): the schema property at the concrete one-int-column
dataset (whose describe result is the sorted final-row table). -/
theorem claim4_witness :
    ((sortRows (methodsCatalog.map (finalRow exIntDF))).all (fun r =>
      r.cells.map Prod.fst ==
        exIntDF.cols.map (fun c => c.field.name))) = true :=
  claim4_schema exIntDF _ (dataFrameDescribe_ok exIntDF (by decide))

/-- C5: for every dataset whose describe succeeds, the SummaryTable has
exactly one row per kind of the fixed 12-element catalog, and its rows
are sorted by the `describe` label in strictly ascending lexicographic
order — which is not the catalog order (`max` first, `total` last). -/
theorem claim5_rows (df : DFrame) (st : List StatRow)
    (hok : dataFrameDescribe df = .ok st) :
    st.length = 12 ∧
    st.map (fun r => r.label) =
      ["max", "mean", "median", "min", "null_total", "percentile_50",
       "percentile_75", "percentile_90", "percentile_95", "percentile_99",
       "stddev", "total"] ∧
    strAscending (st.map (fun r => r.label)) = true := by
  obtain ⟨hne, rfl⟩ := dataFrameDescribe_ok_inv df st hok
  have hlab : (sortRows (methodsCatalog.map (finalRow df))).map
      (fun r => r.label) =
      ["max", "mean", "median", "min", "null_total", "percentile_50",
       "percentile_75", "percentile_90", "percentile_95", "percentile_99",
       "stddev", "total"] := by
    rw [map_label_sortRows, finalRows_labels]
    decide
  refine ⟨?_, hlab, ?_⟩
  · simpa using congrArg List.length hlab
  · rw [hlab]
    decide

/-- C5 (witness): the row-count and sorted-label property at the
concrete one-int-column dataset. -/
theorem claim5_witness :
    (sortRows (methodsCatalog.map (finalRow exIntDF))).length = 12 ∧
    (sortRows (methodsCatalog.map (finalRow exIntDF))).map
      (fun r => r.label) =
      ["max", "mean", "median", "min", "null_total", "percentile_50",
       "percentile_75", "percentile_90", "percentile_95", "percentile_99",
       "stddev", "total"] ∧
    strAscending ((sortRows (methodsCatalog.map (finalRow exIntDF))).map
      (fun r => r.label)) = true :=
  claim5_rows exIntDF _ (dataFrameDescribe_ok exIntDF (by decide))

/-- C6: normalization rewrites each column by its classified type into
one output column named identically to the input — Temporal is cast to
floating point, Numeric passes through unchanged, List-like becomes the
per-row element count, everything else becomes the length of the value
cast to text; NULL propagates. -/
theorem claim6_normalizer (f : Field) (dt : DataType) (v : Value) :
    (normalizeExpr f).outName = f.name ∧
    (normalizeExpr f).expr = (match classify f.dtype with
      | .temporal => .castF64 f.name
      | .numeric => .colRef f.name
      | .listLike => .arrayLen f.name
      | .textualOther => .textLen f.name) ∧
    normalizeValue dt none = none ∧
    normalizeValue dt (some v) = some (match classify dt with
      | .temporal => castFloat v
      | .numeric => v
      | .listLike => .int (listLen v)
      | .textualOther => .int ((castToText v).length)) := by
  refine ⟨rfl, ?_, rfl, ?_⟩
  · obtain ⟨n, dt0⟩ := f
    cases dt0 <;> rfl
  · cases dt <;> rfl

/-- C7 (counterexample): the claim "a column with k non-null and m null
values out of k+m rows yields Total = k and NullTotal = m, for all
columns" fails for a column with zero rows (k = m = 0): SQL `sum` over
no rows is NULL, so the NullTotal cell is the SQL NULL value, not 0. -/
theorem claim7_counterexample :
    outCellAt (dataFrameDescribe exNoRowsDF) "null_total" "a" = some none ∧
    outCellAt (dataFrameDescribe exNoRowsDF) "null_total" "a" ≠
      some (some (.float 0)) := by
  decide

/-- C7 (amended): for every dataset whose describe succeeds and every
column with k non-null and m null values, the Total cell holds k, and —
provided the column has at least one row — the NullTotal cell holds m
(for a zero-row column the NullTotal cell is the SQL NULL value). -/
theorem claim7_null_handling (df : DFrame) (c : Column) (st : List StatRow)
    (hnd : (df.cols.map (fun x => x.field.name)).Nodup)
    (hc : c ∈ df.cols)
    (hok : dataFrameDescribe df = .ok st) :
    cellNum st "total" c.field.name = some ((countSome c.values : Nat) : ℚ) ∧
    (c.values ≠ [] →
      cellNum st "null_total" c.field.name =
        some ((countNone c.values : Nat) : ℚ)) := by
  obtain ⟨hne, rfl⟩ := dataFrameDescribe_ok_inv df st hok
  constructor
  · unfold cellNum
    rw [show ("total" : String) = methodLabel .total from rfl,
        cellAt_describe df .total c.field.name (by decide),
        finalRow_lookup df .total c hc hnd,
        finalCell_total df c hc hnd]
    simp [toRat_castDisplay_natCast]
  · intro hv
    unfold cellNum
    rw [show ("null_total" : String) = methodLabel .nullTotal from rfl,
        cellAt_describe df .nullTotal c.field.name (by decide),
        finalRow_lookup df .nullTotal c hc hnd,
        finalCell_nullTotal df c hc hnd hv]
    simp [toRat_castDisplay_natCast]

/-- C7 (witness): the amended statement at the concrete dataset with one
non-null and one null row (k = 1, m = 1). -/
theorem claim7_witness :
    cellNum (sortRows (methodsCatalog.map (finalRow exIntDF)))
      "total" "a" = some 1 ∧
    cellNum (sortRows (methodsCatalog.map (finalRow exIntDF)))
      "null_total" "a" = some 1 :=
  ⟨(claim7_null_handling exIntDF exIntCol _ (by decide) (by decide)
      (dataFrameDescribe_ok exIntDF (by decide))).1,
   (claim7_null_handling exIntDF exIntCol _ (by decide) (by decide)
      (dataFrameDescribe_ok exIntDF (by decide))).2 (by decide)⟩

/-- C8: every column of the transformed relation built by `try_new` has
a numeric data type, so the `is_numeric` filter of the statistic
builders selects every transformed column, and each builder's
aggregate-expression list has exactly one entry per original column
(hence is non-empty whenever the dataset has a column). -/
theorem claim8_transformed_numeric :
    (∀ dt : DataType, (normType dt).isNumeric = true) ∧
    (∀ (df : DFrame) (m : DescribeMethod),
      methodFields m (transform df) = (transform df).cols) ∧
    (∀ (df : DFrame) (m : DescribeMethod),
      (methodFields m (transform df)).length = df.cols.length) := by
  refine ⟨normType_isNumeric,
    fun df m => methodFields_of_numeric m _ (transform_numeric df), ?_⟩
  intro df m
  rw [methodFields_of_numeric m _ (transform_numeric df)]
  simp [transform]

/-- C9: for every dataset with at least one column, every statistic
builder inside `do_describe` returns Ok, and the whole fold (labelling
select and union included) succeeds — so none of the `.unwrap()` calls
can panic under that precondition. -/
theorem claim9_no_unwrap_aborts (df : DFrame) (h : df.cols ≠ []) :
    (∀ m : DescribeMethod,
      runMethod m (transform df) = .ok (rawRowCells df m)) ∧
    (doDescribe (transform df)).isOk = true := by
  refine ⟨fun m => runMethod_transform_ok df m h, ?_⟩
  rw [doDescribe_transform_ok df h]
  rfl

/-- C9 (witness): the no-abort property at the concrete one-int-column
dataset, instantiated at the Total builder. -/
theorem claim9_witness :
    runMethod .total (transform exIntDF) = .ok (rawRowCells exIntDF .total) ∧
    (doDescribe (transform exIntDF)).isOk = true :=
  ⟨(claim9_no_unwrap_aborts exIntDF (by decide)).1 .total,
   (claim9_no_unwrap_aborts exIntDF (by decide)).2⟩

/-- C10: describe never returns the `"No statistics found"` error: the
catalog installed by `try_new` is non-empty (12 kinds), so the fold in
`do_describe` always produces a dataframe (or aborts earlier), and that
error branch is unreachable for every dataset. -/
theorem claim10_no_stats_error_unreachable (df : DFrame) :
    isNoStatsError (dataFrameDescribe df) = false := by
  rcases eq_or_ne df.cols [] with h | h
  · rw [dataFrameDescribe_empty df h]
    rfl
  · rw [dataFrameDescribe_ok df h]
    rfl

end Taotie
